import Mathlib

/-
Verification of the coordination protocols of the Classic-C-Problems
repository, as shallowly embedded Lean definitions.

The repository implements three coordinators, each three times over
different primitives.  The embeddings below follow the source files
named by the claims (video_studio_monitor.c and video_studio_sem.c,
ecommerce_monitor.c and ecommerce_mutex.c, print_system_monitor.c):
every atomic lock-held section of the C code becomes a pure state
transformer, and the states reachable by interleaving those atomic
sections are captured by explicit step relations.  C int counters that the calling protocol keeps
non-negative are modelled as Nat; where a claim concerns C behaviour on
protocol violations, a separate model with Int counters and no
preconditions is used.
-/

set_option maxHeartbeats 1000000

namespace ClassicCP

/-! ## ResourceRing: src/dining-philosophers/video_studio_monitor.c

`NUM_EDITORS = NUM_BOARDS = 5`.  Actor (editor) `i` needs boards `i`
(left) and `(i+1) % 5` (right).  Indices are `Fin 5`, whose `+` is
exactly the C arithmetic mod `NUM_BOARDS`. -/

/-- EditorState from the C enum: THINKING, HUNGRY, EDITING. -/
inductive EditorState where
  | THINKING
  | HUNGRY
  | EDITING
deriving DecidableEq

/-- The shared state of the StudioMonitor struct: editor states and the
board_in_use flags (0 = free, 1 = in use).  The pthread mutex and the
condition variables carry no state that the safety claims mention. -/
structure StudioMonitor where
  state : Fin 5 → EditorState
  board_in_use : Fin 5 → Bool

/-- can_edit from video_studio_monitor.c lines 128-136: the editor is
HUNGRY and both adjacent boards are free. -/
def can_edit (s : StudioMonitor) (i : Fin 5) : Bool :=
  decide (s.state i = EditorState.HUNGRY) &&
    !(s.board_in_use i) && !(s.board_in_use (i + 1))

/-- Setting both adjacent boards of actor `i` to `v`, as the two
consecutive assignments in try_to_edit / release_boards do. -/
def setBoards (f : Fin 5 → Bool) (i : Fin 5) (v : Bool) : Fin 5 → Bool :=
  Function.update (Function.update f i v) (i + 1) v

/-- try_to_edit from video_studio_monitor.c lines 148-162: if can_edit,
mark the actor EDITING and both adjacent boards in use (one atomic
step under the monitor mutex); otherwise no change. -/
def try_to_edit (s : StudioMonitor) (i : Fin 5) : StudioMonitor :=
  if can_edit s i = true then
    { state := Function.update s.state i EditorState.EDITING
      board_in_use := setBoards s.board_in_use i true }
  else s

/-- The lock-held section of request_boards (acquirePair), lines
175-193: set the actor HUNGRY, then try_to_edit.  If the actor is still
HUNGRY afterwards the thread blocks; it is turned EDITING later inside a
releasing neighbour's try_to_edit, so no further state change belongs to
this call. -/
def request_boards (s : StudioMonitor) (i : Fin 5) : StudioMonitor :=
  try_to_edit { s with state := Function.update s.state i EditorState.HUNGRY } i

/-- The lock-held section of release_boards (releasePair), lines
205-222: set the actor THINKING, free both adjacent boards, then
re-evaluate exactly the two ring neighbours. -/
def release_boards (s : StudioMonitor) (i : Fin 5) : StudioMonitor :=
  let s1 : StudioMonitor :=
    { state := Function.update s.state i EditorState.THINKING
      board_in_use := setBoards s.board_in_use i false }
  try_to_edit (try_to_edit s1 (i + 4)) (i + 1)

/-- monitor_init, lines 80-99: all editors THINKING, all boards free. -/
def studio0 : StudioMonitor :=
  { state := fun _ => EditorState.THINKING
    board_in_use := fun _ => false }

/-- Actor `a` holds unit `u`: it is ACTIVE (EDITING) and `u` is one of
its two adjacent units.  The monitor records ownership only through the
EDITING state, which try_to_edit grants together with both flags. -/
def holdsUnit (s : StudioMonitor) (a u : Fin 5) : Prop :=
  s.state a = EditorState.EDITING ∧ (u = a ∨ u = a + 1)

/-- No two adjacent actors are simultaneously EDITING. -/
def adjacentExclusive (s : StudioMonitor) : Prop :=
  ∀ a : Fin 5,
    ¬(s.state a = EditorState.EDITING ∧ s.state (a + 1) = EditorState.EDITING)

/-- A board is flagged in use exactly when one of its two adjacent
actors is EDITING (board `b` belongs to actors `b` and `b + 4`). -/
def boardConsistent (s : StudioMonitor) : Prop :=
  ∀ b : Fin 5,
    s.board_in_use b = true ↔
      (s.state b = EditorState.EDITING ∨ s.state (b + 4) = EditorState.EDITING)

/-- The ring safety invariant. -/
def RingInv (s : StudioMonitor) : Prop :=
  adjacentExclusive s ∧ boardConsistent s

instance (s : StudioMonitor) : Decidable (RingInv s) := by
  unfold RingInv adjacentExclusive boardConsistent
  infer_instance

/-- One completed monitor section.  The preconditions are the calling
protocol of the editor threads (lines 262-276): request_boards is called
from THINKING, release_boards after the acquisition completed, i.e. from
EDITING; per the spec, requesting while already ACTIVE is a caller
contract violation that is out of scope here (treated in the C8
analysis). -/
inductive RingStep : StudioMonitor → StudioMonitor → Prop where
  | request (s : StudioMonitor) (i : Fin 5) :
      s.state i = EditorState.THINKING → RingStep s (request_boards s i)
  | release (s : StudioMonitor) (i : Fin 5) :
      s.state i = EditorState.EDITING → RingStep s (release_boards s i)

/-- States reachable from the initial monitor state by any sequence of
acquirePair / releasePair sections. -/
def RingReach (s : StudioMonitor) : Prop :=
  Relation.ReflTransGen RingStep studio0 s

/-- A reachable state in which actor 0 has acquired its pair. -/
def ringBusy : StudioMonitor := request_boards studio0 0

/-- The state produced by the contract-violating call
release_boards(1) in ringBusy, where actor 1 never acquired anything
(its state is THINKING, not EDITING). -/
def ringViolated : StudioMonitor := release_boards ringBusy 1

/-! ## ResourceRing, semaphore variant:
src/dining-philosophers/video_studio_sem.c

get_boards (lines 172-189) is not a single lock-held section: after the
mutex section that sets HUNGRY and runs test_editor, the thread waits
on its own editor semaphore and then acquires the two board semaphores
one at a time, outside the mutex.  Each blocking semaphore wait is its
own atomic step, so the model carries a program counter per editor
thread.  test_editor (lines 129-144) is embedded exactly as written:
`left = editor_id`, i.e. the guard checks the requesting editor itself
instead of its left neighbour (editor_id + 4) mod 5. -/

/-- Program counter of an editor thread through get_boards/put_boards:
thinking (outside), requested (past the mutex section of get_boards,
at sem_wait(sem_editors[i])), granted (past sem_editors[i], at
sem_wait(boards[i])), holdLeft (holding boards[i], at
sem_wait(boards[i+1])), working (holding both boards). -/
inductive SemPhase where
  | thinking
  | requested
  | granted
  | holdLeft
  | working
deriving DecidableEq

/-- The StudioControl struct of video_studio_sem.c plus the editor
thread program counters: editor states and the counting-semaphore
values of sem_editors and boards.  The binary mutex is the atomic-step
granularity of the model. -/
structure StudioControl where
  state : Fin 5 → EditorState
  sem_editors : Fin 5 → Nat
  boards : Fin 5 → Nat
  phase : Fin 5 → SemPhase

/-- sem_post on one counting semaphore of an array. -/
def sem_post_at (f : Fin 5 → Nat) (u : Fin 5) : Fin 5 → Nat :=
  Function.update f u (f u + 1)

/-- test_editor from video_studio_sem.c lines 129-144, exactly as
written: `left = editor_id` — the code checks the requesting editor
itself, not its left neighbour — and
`right = (editor_id + 1) % NUM_EDITORS`.  When the guard passes, the
editor becomes EDITING and its semaphore is posted. -/
def test_editor (s : StudioControl) (editor_id : Fin 5) : StudioControl :=
  let left := editor_id
  let right := editor_id + 1
  if s.state editor_id = EditorState.HUNGRY ∧
      s.state left ≠ EditorState.EDITING ∧
      s.state right ≠ EditorState.EDITING then
    { s with
      state := Function.update s.state editor_id EditorState.EDITING,
      sem_editors := sem_post_at s.sem_editors editor_id }
  else s

/-- init_studio, lines 77-94: mutex 1, editor semaphores 0, boards 1,
all editors THINKING; every thread starts outside get_boards. -/
def studioSem0 : StudioControl :=
  { state := fun _ => EditorState.THINKING
    sem_editors := fun _ => 0
    boards := fun _ => 1
    phase := fun _ => SemPhase.thinking }

/-- The mutex section of get_boards, lines 174-180:
state[editor_id] = HUNGRY; test_editor(editor_id); the thread then
moves on to sem_wait(sem_editors[editor_id]). -/
def get_boards_entry (s : StudioControl) (i : Fin 5) : StudioControl :=
  test_editor
    { s with state := Function.update s.state i EditorState.HUNGRY,
             phase := Function.update s.phase i SemPhase.requested } i

/-- sem_wait(&studio.sem_editors[editor_id]), line 181: completes only
when the semaphore is positive. -/
def pass_editor_sem (s : StudioControl) (i : Fin 5) : StudioControl :=
  { s with
    sem_editors := Function.update s.sem_editors i (s.sem_editors i - 1),
    phase := Function.update s.phase i SemPhase.granted }

/-- sem_wait(&studio.boards[editor_id]), line 184: the left board is
acquired on its own, after the mutex was released. -/
def take_left_board (s : StudioControl) (i : Fin 5) : StudioControl :=
  { s with boards := Function.update s.boards i (s.boards i - 1),
           phase := Function.update s.phase i SemPhase.holdLeft }

/-- sem_wait(&studio.boards[(editor_id + 1) % NUM_BOARDS]), line 185:
the right board is acquired separately. -/
def take_right_board (s : StudioControl) (i : Fin 5) : StudioControl :=
  { s with boards := Function.update s.boards (i + 1) (s.boards (i + 1) - 1),
           phase := Function.update s.phase i SemPhase.working }

/-- put_boards, lines 216-233 (one mutex section): state THINKING,
post both board semaphores, re-test the two ring neighbours. -/
def put_boards (s : StudioControl) (i : Fin 5) : StudioControl :=
  let s1 : StudioControl :=
    { s with state := Function.update s.state i EditorState.THINKING,
             boards := sem_post_at (sem_post_at s.boards i) (i + 1),
             phase := Function.update s.phase i SemPhase.thinking }
  test_editor (test_editor s1 (i + 4)) (i + 1)

/-- One atomic step of the semaphore implementation: a mutex section or
one completed semaphore wait.  The phase preconditions are the editor
thread program of lines 247-261; a sem_wait completes only when its
semaphore is positive, otherwise the thread stays blocked. -/
inductive SemStep : StudioControl → StudioControl → Prop where
  | request (s : StudioControl) (i : Fin 5) :
      s.phase i = SemPhase.thinking → SemStep s (get_boards_entry s i)
  | grant (s : StudioControl) (i : Fin 5) :
      s.phase i = SemPhase.requested → 0 < s.sem_editors i →
      SemStep s (pass_editor_sem s i)
  | takeLeft (s : StudioControl) (i : Fin 5) :
      s.phase i = SemPhase.granted → 0 < s.boards i →
      SemStep s (take_left_board s i)
  | takeRight (s : StudioControl) (i : Fin 5) :
      s.phase i = SemPhase.holdLeft → 0 < s.boards (i + 1) →
      SemStep s (take_right_board s i)
  | release (s : StudioControl) (i : Fin 5) :
      s.phase i = SemPhase.working → SemStep s (put_boards s i)

/-- States of the semaphore variant reachable from initialisation. -/
def SemReach (s : StudioControl) : Prop :=
  Relation.ReflTransGen SemStep studioSem0 s

/-- The state after editor 0 and then editor 1 run the get_boards
mutex section: because test_editor never looks at the left neighbour,
editor 1 passes the guard while editor 0 is already EDITING. -/
def semAdjacent : StudioControl :=
  get_boards_entry (get_boards_entry studioSem0 0) 1

/-- Intermediate states of the schedule exhibiting a partial hold:
editors 2 and 3 both pass test_editor (the left-neighbour slip lets
editor 3 through), editor 3 takes boards 3 and 4, then editor 2 takes
board 2 and is stuck before board 3. -/
def semPartial1 : StudioControl := get_boards_entry studioSem0 2

def semPartial2 : StudioControl := get_boards_entry semPartial1 3

def semPartial3 : StudioControl := pass_editor_sem semPartial2 3

def semPartial4 : StudioControl := take_left_board semPartial3 3

def semPartial5 : StudioControl := take_right_board semPartial4 3

def semPartial6 : StudioControl := pass_editor_sem semPartial5 2

/-- The final state of that schedule: editor 2 holds board 2 only,
blocked on board 3 which editor 3 took. -/
def semPartial : StudioControl := take_left_board semPartial6 2

/-! ## AccessGate: src/readers–writers/ecommerce_monitor.c and
src/readers–writers/ecommerce_mutex.c

The repository realises the two priority policies as the two source
files: ecommerce_monitor.c blocks a reader while any writer is active
or waiting (writer preference), ecommerce_mutex.c blocks a reader only
while a writer actually holds write_mutex (reader preference).  The
spec folds them into one component with a policy selected at
construction; the gate state below carries that policy and dispatches
to the guard of the corresponding source file.  Counters are C ints
kept non-negative by the calling protocol, modelled as Nat; the step
preconditions are exactly the protocol (endRead after beginRead,
endWrite after beginWrite). -/

/-- The construction-time priority policy from the spec. -/
inductive Policy where
  | READER_PREFERENCE
  | WRITER_PREFERENCE
deriving DecidableEq

/-- Synchronisation counters of the CatalogMonitor struct
(num_readers, num_writers, writer_waiting), plus the policy choosing
which source implementation governs the reader guard. -/
structure CatalogGate where
  policy : Policy
  num_readers : Nat
  num_writers : Nat
  writer_waiting : Nat

/-- monitor_init of ecommerce_monitor.c lines 83-103: all counters 0;
the policy is the construction parameter. -/
def gate_init (p : Policy) : CatalogGate :=
  { policy := p, num_readers := 0, num_writers := 0, writer_waiting := 0 }

/-- The condition under which start_read of ecommerce_monitor.c
(lines 126-138) stops waiting: the negation of the loop guard
`num_writers > 0 || writer_waiting > 0`. -/
def start_read_guard_monitor (g : CatalogGate) : Prop :=
  g.num_writers = 0 ∧ g.writer_waiting = 0

/-- The condition under which the reader entry protocol of
ecommerce_mutex.c (lines 104-117) proceeds without blocking: it blocks
only when it is the first reader (num_readers was 0) and write_mutex is
held by an active writer. -/
def reader_entry_guard_mutex (g : CatalogGate) : Prop :=
  ¬(g.num_readers = 0 ∧ 0 < g.num_writers)

/-- beginRead is enabled: dispatch on the policy to the guard of the
corresponding source implementation. -/
def beginReadEnabled (g : CatalogGate) : Prop :=
  match g.policy with
  | Policy.READER_PREFERENCE => reader_entry_guard_mutex g
  | Policy.WRITER_PREFERENCE => start_read_guard_monitor g

/-- One completed lock-held section of the gate.  beginWrite is two
sections (register intent, then complete once no reader or writer is
active), because pthread_cond_wait releases the monitor lock between
them. -/
inductive GateStep : CatalogGate → CatalogGate → Prop where
  | beginRead (g : CatalogGate) :
      beginReadEnabled g →
      GateStep g { g with num_readers := g.num_readers + 1 }
  | endRead (g : CatalogGate) :
      0 < g.num_readers →
      GateStep g { g with num_readers := g.num_readers - 1 }
  | registerWrite (g : CatalogGate) :
      GateStep g { g with writer_waiting := g.writer_waiting + 1 }
  | completeWrite (g : CatalogGate) :
      0 < g.writer_waiting → g.num_readers = 0 → g.num_writers = 0 →
      GateStep g { g with writer_waiting := g.writer_waiting - 1,
                          num_writers := g.num_writers + 1 }
  | endWrite (g : CatalogGate) :
      0 < g.num_writers →
      GateStep g { g with num_writers := g.num_writers - 1 }

/-- Gate states reachable from construction with policy `p`. -/
def GateReach (p : Policy) (g : CatalogGate) : Prop :=
  Relation.ReflTransGen GateStep (gate_init p) g

/-- The gate exclusivity invariant. -/
def GateInv (g : CatalogGate) : Prop :=
  g.num_writers ≤ 1 ∧ (0 < g.num_writers → g.num_readers = 0) ∧
    (0 < g.num_readers → g.num_writers = 0)

/-! A second gate model with C int semantics and no preconditions, used
for the contract-violation claim: end_write of ecommerce_monitor.c
(lines 192-208) decrements num_writers unconditionally; the
signal/broadcast calls change no counter. -/

/-- The gate counters as C ints. -/
structure CatalogGateC where
  num_readers : Int
  num_writers : Int
  writer_waiting : Int

/-- The counters after monitor_init. -/
def gate0c : CatalogGateC :=
  { num_readers := 0, num_writers := 0, writer_waiting := 0 }

/-- end_write with no precondition, exactly as the C code executes it
in any state: num_writers-- and nothing else; no check, no abort, no
error result. -/
def end_write_c (g : CatalogGateC) : CatalogGateC :=
  { g with num_writers := g.num_writers - 1 }

/-! ## Catalog records: the writer update of ecommerce_monitor.c lines
262-274 (identical in ecommerce_mutex.c lines 165-177).

The C Product struct carries id, price (a C float) and stock (an int).
The claims speak only about stock; the float price field and its update
are outside the integer embedding and omitted here. -/

/-- A catalog record: id and stock quantity (C ints). -/
structure Product where
  id : Int
  stock : Int
deriving DecidableEq

/-- The stock part of the writer update:
`stock = stock + stock_change; if (stock < 0) stock = 0;`. -/
def writer_update_stock (stock stock_change : Int) : Int :=
  if stock + stock_change < 0 then 0 else stock + stock_change

/-- One writer critical section applied to the catalog: update the
record at product_id (rand() % MAX_PRODUCTS, always in range in C;
out-of-range indices leave the list unchanged). -/
def writer_update (ps : List Product) (product_id : Nat)
    (stock_change : Int) : List Product :=
  match ps[product_id]? with
  | none => ps
  | some p =>
      ps.set product_id { p with stock := writer_update_stock p.stock stock_change }

/-- MAX_PRODUCTS. -/
def MAX_PRODUCTS : Nat := 100

/-- monitor_init population, lines 97-102: ids 1..100 and
`stock = rand() % 50`; the rand stream is the parameter. -/
def init_products (stock_seed : Nat → Nat) : List Product :=
  (List.range MAX_PRODUCTS).map fun i =>
    { id := Int.ofNat (i + 1), stock := Int.ofNat (stock_seed i % 50) }

/-- Catalogs reachable from construction by writer updates. -/
inductive CatalogReach : List Product → Prop where
  | init (stock_seed : Nat → Nat) : CatalogReach (init_products stock_seed)
  | update (ps : List Product) (product_id : Nat) (stock_change : Int) :
      CatalogReach ps → CatalogReach (writer_update ps product_id stock_change)

/-! ## BoundedChannel: src/bounded–buffer/print_system_monitor.c

BUFFER_SIZE = 5, NUM_PRODUCERS = 3.  The C indices `in` and `out` are
ints kept below BUFFER_SIZE by the `% BUFFER_SIZE` updates; they are
modelled as Nat with the same updates (`in` is a Lean keyword, hence
the names inIdx / outIdx). -/

/-- BUFFER_SIZE. -/
def BUFFER_SIZE : Nat := 5

/-- NUM_PRODUCERS. -/
def NUM_PRODUCERS : Nat := 3

/-- The Document struct. -/
structure Document where
  id : Int
  type : String
  size : Int
  producer_id : Int
deriving DecidableEq, Inhabited

/-- Index into the circular buffer. -/
def slotIdx (n : Nat) : Fin BUFFER_SIZE :=
  ⟨n % BUFFER_SIZE, Nat.mod_lt _ (by decide)⟩

/-- The PrintQueueMonitor struct: circular buffer, count, insertion
index `in`, removal index `out`, active_producers and should_stop.
The mutexes and condition variables carry no further state. -/
structure PrintQueueMonitor where
  buffer : Fin BUFFER_SIZE → Document
  count : Nat
  inIdx : Nat
  outIdx : Nat
  active_producers : Nat
  should_stop : Bool

/-- monitor_init lines 80-94 (the C buffer contents start
uninitialised; `default` stands for the arbitrary initial bytes, never
read before being written). -/
def chan0 : PrintQueueMonitor :=
  { buffer := fun _ => default, count := 0, inIdx := 0, outIdx := 0,
    active_producers := NUM_PRODUCERS, should_stop := false }

/-- The state change of a successful insert, lines 155-160:
`buffer[in] = doc; in = (in + 1) % BUFFER_SIZE; count++;`. -/
def insertEffect (m : PrintQueueMonitor) (doc : Document) : PrintQueueMonitor :=
  { m with buffer := Function.update m.buffer (slotIdx m.inIdx) doc,
           inIdx := (m.inIdx + 1) % BUFFER_SIZE,
           count := m.count + 1 }

/-- The state change of a successful remove, lines 195-197:
`*doc = buffer[out]; out = (out + 1) % BUFFER_SIZE; count--;`. -/
def removeEffect (m : PrintQueueMonitor) : PrintQueueMonitor :=
  { m with outIdx := (m.outIdx + 1) % BUFFER_SIZE,
           count := m.count - 1 }

/-- Outcome of monitor_insert: the wait loop never exits (no other
thread in the sequential model), the should_stop early return (item
dropped, state returned unchanged), or a completed insert. -/
inductive InsertResult where
  | blocked
  | dropped (m : PrintQueueMonitor)
  | inserted (m : PrintQueueMonitor)

/-- monitor_insert, lines 138-164:
`while (count == BUFFER_SIZE && !should_stop) wait; if (should_stop)
return; <insert>`. -/
def monitor_insert (m : PrintQueueMonitor) (doc : Document) : InsertResult :=
  if m.count = BUFFER_SIZE ∧ m.should_stop = false then InsertResult.blocked
  else if m.should_stop = true then InsertResult.dropped m
  else InsertResult.inserted (insertEffect m doc)

/-- Outcome of monitor_remove: blocked in the wait loop, the
distinguished return 0 (closed or producers finished, nothing
removed), or return 1 with the removed document. -/
inductive RemoveResult where
  | blocked
  | empty_closed (m : PrintQueueMonitor)
  | removed (doc : Document) (m : PrintQueueMonitor)

/-- monitor_remove, lines 175-203: inside the `count == 0 &&
!should_stop` loop an early `return 0` when active_producers == 0,
otherwise wait; after the loop `return 0` when should_stop and empty;
otherwise remove and return 1. -/
def monitor_remove (m : PrintQueueMonitor) : RemoveResult :=
  if m.count = 0 ∧ m.should_stop = false ∧ m.active_producers = 0 then
    RemoveResult.empty_closed m
  else if m.count = 0 ∧ m.should_stop = false then RemoveResult.blocked
  else if m.should_stop = true ∧ m.count = 0 then RemoveResult.empty_closed m
  else RemoveResult.removed (m.buffer (slotIdx m.outIdx)) (removeEffect m)

/-- One completed channel operation. -/
inductive ChanStep : PrintQueueMonitor → PrintQueueMonitor → Prop where
  | ins (m : PrintQueueMonitor) (doc : Document) (m2 : PrintQueueMonitor) :
      monitor_insert m doc = InsertResult.inserted m2 → ChanStep m m2
  | rem (m : PrintQueueMonitor) (doc : Document) (m2 : PrintQueueMonitor) :
      monitor_remove m = RemoveResult.removed doc m2 → ChanStep m m2

/-- Channel states reachable from the empty channel by completed
insert/remove operations. -/
def ChanReach (m : PrintQueueMonitor) : Prop :=
  Relation.ReflTransGen ChanStep chan0 m

/-- The channel well-formedness facts that hold along every run from
chan0: index bounds, the index/count accounting, and the unchanged
shutdown fields. -/
structure ChanOK (m : PrintQueueMonitor) : Prop where
  count_le : m.count ≤ BUFFER_SIZE
  inIdx_lt : m.inIdx < BUFFER_SIZE
  outIdx_lt : m.outIdx < BUFFER_SIZE
  idx_eq : m.inIdx = (m.outIdx + m.count) % BUFFER_SIZE
  stop_false : m.should_stop = false
  producers_ne : m.active_producers ≠ 0

/-- The k-th occupied slot counting from the removal index. -/
def chanSlot (m : PrintQueueMonitor) (k : Nat) : Document :=
  m.buffer (slotIdx (m.outIdx + k))

/-- The queue of documents the channel currently holds, in removal
order. -/
def chanList (m : PrintQueueMonitor) : List Document :=
  (List.range m.count).map (chanSlot m)

/-- A sequential single-producer/single-consumer script. -/
inductive ChanOp where
  | ins (doc : Document)
  | rem

/-- Run a script against the channel; an operation whose guard would
block in the sequential setting is skipped, a completed remove records
its output.  Returns the final state and the outputs in order. -/
def runChan (m : PrintQueueMonitor) :
    List ChanOp → PrintQueueMonitor × List Document
  | [] => (m, [])
  | ChanOp.ins d :: rest =>
    match monitor_insert m d with
    | InsertResult.inserted m2 => runChan m2 rest
    | _ => runChan m rest
  | ChanOp.rem :: rest =>
    match monitor_remove m with
    | RemoveResult.removed d m2 =>
        ((runChan m2 rest).1, d :: (runChan m2 rest).2)
    | _ => runChan m rest

/-- Modelled from the spec: the reference capacity-N FIFO queue that
the channel is claimed to refine ("items are returned in the exact
order inserted (FIFO) when single-producer/single-consumer").  Insert
appends when fewer than BUFFER_SIZE items are held, remove takes the
oldest item; guarded-out operations are skipped exactly as in
runChan. -/
def runQueue (q : List Document) :
    List ChanOp → List Document × List Document
  | [] => (q, [])
  | ChanOp.ins d :: rest =>
    if q.length < BUFFER_SIZE then runQueue (q ++ [d]) rest
    else runQueue q rest
  | ChanOp.rem :: rest =>
    match q with
    | [] => runQueue q rest
    | d :: q2 => ((runQueue q2 rest).1, d :: (runQueue q2 rest).2)

/-- The channel after five completed inserts into the empty channel:
the full buffer, on which the literal equation
`count == (tail - head) mod N` fails. -/
def chanFull : PrintQueueMonitor :=
  (runChan chan0 [ChanOp.ins default, ChanOp.ins default, ChanOp.ins default,
    ChanOp.ins default, ChanOp.ins default]).1

/-- A channel that has been marked closed while empty. -/
def chanStopped : PrintQueueMonitor := { chan0 with should_stop := true }

/-- A reachable channel holding one document. -/
def chanOne : PrintQueueMonitor := (runChan chan0 [ChanOp.ins default]).1

/-! Arithmetic facts about the ring topology on `Fin 5`. -/

lemma fin5_add_one_ne : ∀ i : Fin 5, i + 1 ≠ i := by decide

lemma fin5_add_four_ne : ∀ i : Fin 5, i + 4 ≠ i := by decide

lemma fin5_add_one_add_four : ∀ i : Fin 5, i + 1 + 4 = i := by decide

lemma fin5_add_four_add_one : ∀ i : Fin 5, i + 4 + 1 = i := by decide

lemma fin5_eq_add_four_iff : ∀ a i : Fin 5, a + 1 = i ↔ a = i + 4 := by decide

lemma fin5_add_four_eq_iff : ∀ b i : Fin 5, b + 4 = i ↔ b = i + 1 := by decide

lemma fin5_add_right_cancel : ∀ a b : Fin 5, a + 1 = b + 1 → a = b := by decide

lemma can_edit_iff (s : StudioMonitor) (i : Fin 5) :
    can_edit s i = true ↔
      s.state i = EditorState.HUNGRY ∧ s.board_in_use i = false ∧
        s.board_in_use (i + 1) = false := by
  simp [can_edit, Bool.and_eq_true, Bool.not_eq_true', and_assoc]

lemma setBoards_apply (f : Fin 5 → Bool) (i v b) :
    setBoards f i v b = if b = i + 1 then v else if b = i then v else f b := by
  simp [setBoards, Function.update_apply]

/-- try_to_edit preserves the ring invariant. -/
lemma RingInv_try_to_edit {s : StudioMonitor} (h : RingInv s) (i : Fin 5) :
    RingInv (try_to_edit s i) := by
  obtain ⟨hadj, hcons⟩ := h
  by_cases hc : can_edit s i = true
  · obtain ⟨hH, hb1, hb2⟩ := (can_edit_iff s i).mp hc
    have hE4 : s.state (i + 4) ≠ EditorState.EDITING := by
      intro hE
      have := (hcons i).mpr (Or.inr hE)
      rw [this] at hb1
      cases hb1
    have hE1 : s.state (i + 1) ≠ EditorState.EDITING := by
      intro hE
      have := (hcons (i + 1)).mpr (Or.inl hE)
      rw [this] at hb2
      cases hb2
    rw [try_to_edit, if_pos hc]
    constructor
    · intro a ha
      obtain ⟨ha0, ha1⟩ := ha
      simp only [Function.update_apply] at ha0 ha1
      by_cases hai : a = i
      · rw [if_neg (by rw [hai]; exact fin5_add_one_ne i)] at ha1
        rw [hai] at ha1
        exact hE1 ha1
      · rw [if_neg hai] at ha0
        by_cases ha1i : a + 1 = i
        · have : a = i + 4 := (fin5_eq_add_four_iff a i).mp ha1i
          rw [this] at ha0
          exact hE4 ha0
        · rw [if_neg ha1i] at ha1
          exact hadj a ⟨ha0, ha1⟩
    · intro b
      simp only [setBoards_apply, Function.update_apply]
      by_cases hb_i1 : b = i + 1
      · rw [if_pos hb_i1, if_neg (by rw [hb_i1]; exact fin5_add_one_ne i),
          if_pos (by rw [hb_i1]; exact fin5_add_one_add_four i)]
        simp
      · rw [if_neg hb_i1]
        by_cases hb_i : b = i
        · rw [if_pos hb_i, if_pos hb_i,
            if_neg (by rw [hb_i]; exact fin5_add_four_ne i)]
          simp
        · rw [if_neg hb_i, if_neg hb_i,
            if_neg (fun hcon => hb_i1 ((fin5_add_four_eq_iff b i).mp hcon))]
          exact hcons b
  · rw [try_to_edit, if_neg hc]
    exact ⟨hadj, hcons⟩

/-- The request_boards section preserves the ring invariant when called
from THINKING. -/
lemma RingInv_request {s : StudioMonitor} (h : RingInv s) (i : Fin 5)
    (hT : s.state i = EditorState.THINKING) :
    RingInv (request_boards s i) := by
  obtain ⟨hadj, hcons⟩ := h
  rw [request_boards]
  apply RingInv_try_to_edit
  constructor
  · intro a ha
    obtain ⟨ha0, ha1⟩ := ha
    simp only [Function.update_apply] at ha0 ha1
    by_cases hai : a = i
    · rw [if_pos hai] at ha0
      cases ha0
    · rw [if_neg hai] at ha0
      by_cases ha1i : a + 1 = i
      · rw [if_pos ha1i] at ha1
        cases ha1
      · rw [if_neg ha1i] at ha1
        exact hadj a ⟨ha0, ha1⟩
  · intro b
    simp only [Function.update_apply]
    by_cases hbi : b = i
    · rw [if_pos hbi, if_neg (by rw [hbi]; exact fin5_add_four_ne i)]
      have hc := hcons b
      rw [hbi, hT] at hc
      rw [hbi]
      constructor
      · intro hb
        exact Or.inr ((hc.mp hb).resolve_left (by intro hcon; cases hcon))
      · intro hx
        exact hc.mpr (Or.inr (hx.resolve_left (by intro hcon; cases hcon)))
    · rw [if_neg hbi]
      by_cases hb4 : b + 4 = i
      · rw [if_pos hb4]
        have hc := hcons b
        rw [hb4, hT] at hc
        constructor
        · intro hb
          exact Or.inl ((hc.mp hb).resolve_right (by intro hcon; cases hcon))
        · intro hx
          exact hc.mpr (Or.inl (hx.resolve_right (by intro hcon; cases hcon)))
      · rw [if_neg hb4]
        exact hcons b

/-- The release_boards section preserves the ring invariant when called
from EDITING. -/
lemma RingInv_release {s : StudioMonitor} (h : RingInv s) (i : Fin 5)
    (hE : s.state i = EditorState.EDITING) :
    RingInv (release_boards s i) := by
  obtain ⟨hadj, hcons⟩ := h
  have hE1 : s.state (i + 1) ≠ EditorState.EDITING := fun hc => hadj i ⟨hE, hc⟩
  have hE4 : s.state (i + 4) ≠ EditorState.EDITING := by
    intro hc
    exact hadj (i + 4) ⟨hc, by rw [fin5_add_four_add_one i]; exact hE⟩
  rw [release_boards]
  apply RingInv_try_to_edit
  apply RingInv_try_to_edit
  constructor
  · intro a ha
    obtain ⟨ha0, ha1⟩ := ha
    simp only [Function.update_apply] at ha0 ha1
    by_cases hai : a = i
    · rw [if_pos hai] at ha0
      cases ha0
    · rw [if_neg hai] at ha0
      by_cases ha1i : a + 1 = i
      · rw [if_pos ha1i] at ha1
        cases ha1
      · rw [if_neg ha1i] at ha1
        exact hadj a ⟨ha0, ha1⟩
  · intro b
    simp only [setBoards_apply, Function.update_apply]
    by_cases hb_i1 : b = i + 1
    · rw [if_pos hb_i1, if_neg (by rw [hb_i1]; exact fin5_add_one_ne i),
        if_pos (by rw [hb_i1]; exact fin5_add_one_add_four i)]
      rw [hb_i1]
      simp [hE1]
    · rw [if_neg hb_i1]
      by_cases hb_i : b = i
      · rw [if_pos hb_i, if_pos hb_i,
          if_neg (by rw [hb_i]; exact fin5_add_four_ne i)]
        rw [hb_i]
        simp [hE4]
      · rw [if_neg hb_i, if_neg hb_i,
          if_neg (fun hcon => hb_i1 ((fin5_add_four_eq_iff b i).mp hcon))]
        exact hcons b

/-- Every reachable ring state satisfies the safety invariant. -/
lemma RingInv_of_reach {s : StudioMonitor} (h : RingReach s) : RingInv s := by
  induction h with
  | refl =>
      constructor
      · intro a ha
        simp [studio0] at ha
      · intro b
        simp [studio0]
  | tail _ hstep ih =>
      cases hstep with
      | request i hT => exact RingInv_request ih i hT
      | release i hE => exact RingInv_release ih i hE

/-! Gate lemmas. -/

/-- No step changes the construction-time policy. -/
lemma gate_policy_of_reach {p : Policy} {g : CatalogGate}
    (h : GateReach p g) : g.policy = p := by
  induction h with
  | refl => rfl
  | tail _ hstep ih => cases hstep <;> exact ih

/-- Every gate step preserves the exclusivity invariant. -/
lemma GateInv_step {g g2 : CatalogGate} (hstep : GateStep g g2)
    (h : GateInv g) : GateInv g2 := by
  obtain ⟨i1, i2, i3⟩ := h
  have hdis : g.num_writers = 0 ∨ g.num_readers = 0 := by
    rcases Nat.eq_zero_or_pos g.num_writers with h0 | hp
    · exact Or.inl h0
    · exact Or.inr (i2 hp)
  cases hstep with
  | beginRead hen =>
      have hw0 : g.num_writers = 0 := by
        rcases hpol : g.policy with _ | _ <;>
          simp only [beginReadEnabled, hpol, reader_entry_guard_mutex,
            start_read_guard_monitor] at hen
        · rcases hdis with h0 | h0
          · exact h0
          · by_contra hne
            exact hen ⟨h0, by omega⟩
        · exact hen.1
      refine ⟨?_, ?_, ?_⟩
      · show g.num_writers ≤ 1
        omega
      · show 0 < g.num_writers → g.num_readers + 1 = 0
        omega
      · show 0 < g.num_readers + 1 → g.num_writers = 0
        omega
  | endRead hr =>
      refine ⟨?_, ?_, ?_⟩
      · show g.num_writers ≤ 1
        omega
      · show 0 < g.num_writers → g.num_readers - 1 = 0
        rcases hdis with h0 | h0 <;> omega
      · show 0 < g.num_readers - 1 → g.num_writers = 0
        rcases hdis with h0 | h0 <;> omega
  | registerWrite => exact ⟨i1, i2, i3⟩
  | completeWrite hww hr0 hw0 =>
      refine ⟨?_, ?_, ?_⟩
      · show g.num_writers + 1 ≤ 1
        omega
      · show 0 < g.num_writers + 1 → g.num_readers = 0
        omega
      · show 0 < g.num_readers → g.num_writers + 1 = 0
        omega
  | endWrite hw =>
      refine ⟨?_, ?_, ?_⟩
      · show g.num_writers - 1 ≤ 1
        omega
      · show 0 < g.num_writers - 1 → g.num_readers = 0
        omega
      · show 0 < g.num_readers → g.num_writers - 1 = 0
        rcases hdis with h0 | h0 <;> omega

/-- Every reachable gate state satisfies the exclusivity invariant. -/
lemma GateInv_of_reach {p : Policy} {g : CatalogGate}
    (h : GateReach p g) : GateInv g := by
  induction h with
  | refl => exact ⟨by simp [gate_init], by simp [gate_init], by simp [gate_init]⟩
  | tail _ hstep ih => exact GateInv_step hstep ih

/-- Claim C2: AccessGate exclusivity.  In every state reachable by any
sequence of beginRead/endRead/beginWrite/endWrite sections,
num_writers is 0 or 1; whenever num_writers = 1 there are zero active
readers; and whenever readers are active there is no active writer. -/
theorem gate_exclusivity (p : Policy) (g : CatalogGate)
    (h : GateReach p g) :
    g.num_writers ≤ 1 ∧ (g.num_writers = 1 → g.num_readers = 0) ∧
      (0 < g.num_readers → g.num_writers = 0) := by
  obtain ⟨i1, i2, i3⟩ := GateInv_of_reach h
  exact ⟨i1, fun hw => i2 (by omega), i3⟩

/-- Witness for gate_exclusivity at the freshly constructed gate. -/
theorem gate_exclusivity_witness :
    (gate_init Policy.WRITER_PREFERENCE).num_writers ≤ 1 ∧
      ((gate_init Policy.WRITER_PREFERENCE).num_writers = 1 →
        (gate_init Policy.WRITER_PREFERENCE).num_readers = 0) ∧
      (0 < (gate_init Policy.WRITER_PREFERENCE).num_readers →
        (gate_init Policy.WRITER_PREFERENCE).num_writers = 0) :=
  gate_exclusivity Policy.WRITER_PREFERENCE _ Relation.ReflTransGen.refl

/-- Claim C3: the gate takes the priority policy at construction and
supports both policies.  Under READER_PREFERENCE a beginRead is
enabled exactly when no writer is active (a merely-waiting writer
never blocks it); under WRITER_PREFERENCE a beginRead is enabled only
when additionally no writer is waiting. -/
theorem gate_policy_param (p : Policy) (g : CatalogGate)
    (h : GateReach p g) :
    (gate_init p).policy = p ∧
      (g.policy = Policy.READER_PREFERENCE →
        (beginReadEnabled g ↔ g.num_writers = 0)) ∧
      (g.policy = Policy.WRITER_PREFERENCE →
        (beginReadEnabled g ↔ g.num_writers = 0 ∧ g.writer_waiting = 0)) := by
  obtain ⟨i1, i2, i3⟩ := GateInv_of_reach h
  refine ⟨rfl, fun hpol => ?_, fun hpol => ?_⟩
  · rw [beginReadEnabled, hpol]
    unfold reader_entry_guard_mutex
    constructor
    · intro hen
      by_cases h0 : g.num_readers = 0
      · by_contra hne
        exact hen ⟨h0, by omega⟩
      · exact i3 (by omega)
    · intro hw0 hcon
      omega
  · rw [beginReadEnabled, hpol]
    unfold start_read_guard_monitor
    exact Iff.rfl

/-- Witness for gate_policy_param at the freshly constructed
reader-preference gate. -/
theorem gate_policy_param_witness :
    (gate_init Policy.READER_PREFERENCE).policy = Policy.READER_PREFERENCE ∧
      ((gate_init Policy.READER_PREFERENCE).policy = Policy.READER_PREFERENCE →
        (beginReadEnabled (gate_init Policy.READER_PREFERENCE) ↔
          (gate_init Policy.READER_PREFERENCE).num_writers = 0)) ∧
      ((gate_init Policy.READER_PREFERENCE).policy = Policy.WRITER_PREFERENCE →
        (beginReadEnabled (gate_init Policy.READER_PREFERENCE) ↔
          (gate_init Policy.READER_PREFERENCE).num_writers = 0 ∧
            (gate_init Policy.READER_PREFERENCE).writer_waiting = 0)) :=
  gate_policy_param Policy.READER_PREFERENCE _ Relation.ReflTransGen.refl

/-! Ring claim theorems. -/

/-- The mutual-exclusion property for the monitor variant
(video_studio_monitor.c): in every reachable ring state, no unit is
held by two distinct actors, and no two adjacent actors are both in
the ACTIVE (EDITING) state.  The semaphore variant violates this
property: see ring_mutual_exclusion_sem_bug below. -/
theorem ring_mutual_exclusion (s : StudioMonitor) (h : RingReach s) :
    (∀ a b u : Fin 5, holdsUnit s a u → holdsUnit s b u → a = b) ∧
      (∀ a : Fin 5,
        ¬(s.state a = EditorState.EDITING ∧
          s.state (a + 1) = EditorState.EDITING)) := by
  obtain ⟨hadj, _⟩ := RingInv_of_reach h
  refine ⟨?_, hadj⟩
  intro a b u ⟨haE, hau⟩ ⟨hbE, hbu⟩
  rcases hau with rfl | rfl
  · rcases hbu with rfl | h1
    · rfl
    · exact absurd ⟨hbE, h1 ▸ haE⟩ (hadj b)
  · rcases hbu with h1 | h1
    · exact absurd ⟨haE, h1 ▸ hbE⟩ (hadj a)
    · exact fin5_add_right_cancel a b h1

/-- Witness for ring_mutual_exclusion at the reachable state in which
actor 0 has acquired its pair. -/
theorem ring_mutual_exclusion_witness :
    (∀ a b u : Fin 5, holdsUnit ringBusy a u → holdsUnit ringBusy b u → a = b) ∧
      (∀ a : Fin 5,
        ¬(ringBusy.state a = EditorState.EDITING ∧
          ringBusy.state (a + 1) = EditorState.EDITING)) :=
  ring_mutual_exclusion ringBusy
    (Relation.ReflTransGen.single (RingStep.request studio0 0 rfl))

/-- The pair-atomicity property for the monitor variant
(video_studio_monitor.c): in every reachable state an EDITING actor
has both of its adjacent unit flags set, and every set unit flag is
accounted for by an adjacent EDITING actor (who therefore holds both
of its units) — no unit is ever partially reserved.  The semaphore
variant violates this property: see ring_pair_atomicity_sem_bug
below. -/
theorem ring_pair_atomicity (s : StudioMonitor) (h : RingReach s) :
    (∀ i : Fin 5, s.state i = EditorState.EDITING →
      s.board_in_use i = true ∧ s.board_in_use (i + 1) = true) ∧
      (∀ u : Fin 5, s.board_in_use u = true →
        ∃ a : Fin 5, s.state a = EditorState.EDITING ∧ (u = a ∨ u = a + 1)) := by
  obtain ⟨_, hcons⟩ := RingInv_of_reach h
  constructor
  · intro i hE
    refine ⟨(hcons i).mpr (Or.inl hE), (hcons (i + 1)).mpr (Or.inr ?_)⟩
    rw [fin5_add_one_add_four i]
    exact hE
  · intro u hu
    rcases (hcons u).mp hu with hE | hE
    · exact ⟨u, hE, Or.inl rfl⟩
    · exact ⟨u + 4, hE, Or.inr (fin5_add_four_add_one u).symm⟩

/-- Witness for ring_pair_atomicity at the same kind of reachable
state, obtained by a request of actor 2 instead. -/
theorem ring_pair_atomicity_witness :
    (∀ i : Fin 5, (request_boards studio0 2).state i = EditorState.EDITING →
      (request_boards studio0 2).board_in_use i = true ∧
        (request_boards studio0 2).board_in_use (i + 1) = true) ∧
      (∀ u : Fin 5, (request_boards studio0 2).board_in_use u = true →
        ∃ a : Fin 5, (request_boards studio0 2).state a = EditorState.EDITING ∧
          (u = a ∨ u = a + 1)) :=
  ring_pair_atomicity (request_boards studio0 2)
    (Relation.ReflTransGen.single (RingStep.request studio0 2 rfl))

/-- Claim C1, settled against the cited semaphore variant
(video_studio_sem.c test_editor, lines 129-144): because the code sets
`left = editor_id` — checking the requesting editor itself instead of
its left neighbour (editor_id + 4) mod 5 — the state in which the two
adjacent editors 0 and 1 are both EDITING is reachable: editor 0 runs
the get_boards mutex section and becomes EDITING, then editor 1 runs it
and passes test_editor although its left neighbour is EDITING.  The
claimed adjacent-exclusion invariant, which the monitor variant
satisfies (ring_mutual_exclusion), is therefore false of the cited
code: a bug in video_studio_sem.c, contradicting its own comment that
the neighbours are checked. -/
theorem ring_mutual_exclusion_sem_bug :
    SemReach semAdjacent ∧
      semAdjacent.state 0 = EditorState.EDITING ∧
      semAdjacent.state 1 = EditorState.EDITING :=
  ⟨Relation.ReflTransGen.tail
      (Relation.ReflTransGen.single (SemStep.request studioSem0 0 rfl))
      (SemStep.request (get_boards_entry studioSem0 0) 1 (by decide)),
    by decide, by decide⟩

/-- Claim C6, settled against the cited semaphore variant
(video_studio_sem.c get_boards, lines 172-189): the two board
semaphores are acquired one at a time after sem_post(&mutex), not
atomically under the lock, and the test_editor left-neighbour slip
makes a partial hold reachable: editors 2 and 3 both pass test_editor,
editor 3 takes boards 3 and 4, then editor 2 takes board 2 and is
blocked at sem_wait(&boards[3]) (phase holdLeft, board 3 already 0) —
an actor holding exactly one of its two adjacent units.  The claimed
pair atomicity, which the monitor variant satisfies
(ring_pair_atomicity), is therefore false of the cited code. -/
theorem ring_pair_atomicity_sem_bug :
    SemReach semPartial ∧
      semPartial.phase 2 = SemPhase.holdLeft ∧
      semPartial.boards 2 = 0 ∧
      semPartial.boards 3 = 0 ∧
      semPartial.phase 3 = SemPhase.working ∧
      semPartial.state 2 = EditorState.EDITING ∧
      semPartial.state 3 = EditorState.EDITING :=
  ⟨Relation.ReflTransGen.tail
      (Relation.ReflTransGen.tail
        (Relation.ReflTransGen.tail
          (Relation.ReflTransGen.tail
            (Relation.ReflTransGen.tail
              (Relation.ReflTransGen.tail
                (Relation.ReflTransGen.single
                  (SemStep.request studioSem0 2 rfl))
                (SemStep.request semPartial1 3 (by decide)))
              (SemStep.grant semPartial2 3 (by decide) (by decide)))
            (SemStep.takeLeft semPartial3 3 (by decide) (by decide)))
          (SemStep.takeRight semPartial4 3 (by decide) (by decide)))
        (SemStep.grant semPartial5 2 (by decide) (by decide)))
      (SemStep.takeLeft semPartial6 2 (by decide) (by decide)),
    by decide, by decide, by decide, by decide, by decide, by decide⟩

/-! Claim C8 concerns what the code does on a contract violation.  The
spec asks for an abort or a distinguished error result; the code has
neither: end_write returns void and decrements unconditionally, and
release_boards clears both adjacent unit flags unconditionally. -/

/-- Counterexample to claim C8 as stated: from the freshly initialised
gate (no active writer), end_write silently drives num_writers to -1,
violating the invariant activeWriters ≥ 0 instead of aborting; and in
the reachable ring state where actor 0 is EDITING, the
contract-violating release_boards(1) (actor 1 is THINKING, not
EDITING) silently produces a state violating the ring invariant:
board 1 is flagged free while its holder, actor 0, is still EDITING. -/
theorem contract_violation_cex :
    (end_write_c gate0c).num_writers = -1 ∧
      ¬(0 ≤ (end_write_c gate0c).num_writers) ∧
      RingReach ringBusy ∧
      ringBusy.state 1 ≠ EditorState.EDITING ∧
      ringBusy.state 0 = EditorState.EDITING ∧
      ¬RingInv ringViolated :=
  ⟨rfl, by decide,
    Relation.ReflTransGen.single (RingStep.request studio0 0 rfl),
    by decide, by decide, by decide⟩

/-- Claim C8 as amended: contract violations are not detected.
end_write with no active writer silently applies its unconditional
decrement (leaving num_writers = -1 and every other counter
unchanged), and release_boards for an actor that never acquired its
units silently clears both adjacent unit flags, which can break the
unit-flag/actor-state consistency invariant; the code neither aborts
nor returns a distinguished error and relies on callers respecting the
protocol. -/
theorem contract_violation_silent (g : CatalogGateC) :
    end_write_c g = { g with num_writers := g.num_writers - 1 } ∧
      (end_write_c g).num_readers = g.num_readers ∧
      (end_write_c g).writer_waiting = g.writer_waiting ∧
      (end_write_c gate0c).num_writers = -1 ∧
      ¬RingInv ringViolated :=
  ⟨rfl, rfl, rfl, rfl, by decide⟩

/-! Catalog stock claim. -/

/-- The clamped stock update never produces a negative stock. -/
lemma writer_update_stock_nonneg (stock stock_change : Int) :
    0 ≤ writer_update_stock stock stock_change := by
  rw [writer_update_stock]
  split <;> omega

/-- Claim C9: non-negative stock invariant.  A record whose stock is
non-negative before a writer update has non-negative stock afterwards
(the update clamps negative results to 0), and every record in every
catalog reachable from construction has stock ≥ 0. -/
theorem stock_nonneg (ps : List Product) (h : CatalogReach ps) :
    (∀ stock stock_change : Int, 0 ≤ stock →
      0 ≤ writer_update_stock stock stock_change) ∧
      ∀ p ∈ ps, 0 ≤ p.stock := by
  refine ⟨fun s c _ => writer_update_stock_nonneg s c, ?_⟩
  induction h with
  | init stock_seed =>
      intro p hp
      simp only [init_products, List.mem_map, List.mem_range] at hp
      obtain ⟨i, _, rfl⟩ := hp
      show 0 ≤ Int.ofNat (stock_seed i % 50)
      exact Int.ofNat_nonneg _
  | update ps product_id stock_change _ ih =>
      intro p hp
      rw [writer_update] at hp
      rcases hg : ps[product_id]? with _ | p0
      · rw [hg] at hp
        exact ih p hp
      · rw [hg] at hp
        rcases List.mem_or_eq_of_mem_set hp with hmem | rfl
        · exact ih p hmem
        · exact writer_update_stock_nonneg p0.stock stock_change

/-- Witness for stock_nonneg at the catalog constructed from the
all-zero rand stream. -/
theorem stock_nonneg_witness :
    (∀ stock stock_change : Int, 0 ≤ stock →
      0 ≤ writer_update_stock stock stock_change) ∧
      ∀ p ∈ init_products (fun _ => 0), 0 ≤ p.stock :=
  stock_nonneg (init_products (fun _ => 0)) (CatalogReach.init (fun _ => 0))

/-! Channel lemmas. -/

lemma chanOK_chan0 : ChanOK chan0 :=
  ⟨by decide, by decide, by decide, rfl, rfl, by decide⟩

lemma slotIdx_eq_iff (a b : Nat) :
    slotIdx a = slotIdx b ↔ a % BUFFER_SIZE = b % BUFFER_SIZE := by
  constructor
  · intro h
    exact congrArg Fin.val h
  · intro h
    exact Fin.ext h

/-- Inversion of a completed insert. -/
lemma monitor_insert_inserted {m : PrintQueueMonitor} {doc : Document}
    {m2 : PrintQueueMonitor}
    (h : monitor_insert m doc = InsertResult.inserted m2) :
    m2 = insertEffect m doc ∧ m.should_stop = false ∧ m.count ≠ BUFFER_SIZE := by
  rw [monitor_insert] at h
  split_ifs at h with h1 h2
  have hstop : m.should_stop = false := by
    cases hb : m.should_stop
    · rfl
    · exact absurd hb h2
  cases h
  exact ⟨rfl, hstop, fun hc => h1 ⟨hc, hstop⟩⟩

/-- Inversion of a completed remove. -/
lemma monitor_remove_removed {m : PrintQueueMonitor} {doc : Document}
    {m2 : PrintQueueMonitor}
    (h : monitor_remove m = RemoveResult.removed doc m2) :
    doc = m.buffer (slotIdx m.outIdx) ∧ m2 = removeEffect m ∧ 0 < m.count := by
  rw [monitor_remove] at h
  split_ifs at h with h1 h2 h3
  cases h
  refine ⟨rfl, rfl, ?_⟩
  by_contra hc
  have hc0 : m.count = 0 := by omega
  cases hb : m.should_stop
  · exact h2 ⟨hc0, hb⟩
  · exact h3 ⟨hb, hc0⟩

lemma monitor_insert_of_lt {m : PrintQueueMonitor} (doc : Document)
    (hstop : m.should_stop = false) (hne : m.count ≠ BUFFER_SIZE) :
    monitor_insert m doc = InsertResult.inserted (insertEffect m doc) := by
  rw [monitor_insert, if_neg (fun hc => hne hc.1), if_neg (by simp [hstop])]

lemma monitor_insert_full {m : PrintQueueMonitor} (doc : Document)
    (hstop : m.should_stop = false) (hfull : m.count = BUFFER_SIZE) :
    monitor_insert m doc = InsertResult.blocked := by
  rw [monitor_insert, if_pos ⟨hfull, hstop⟩]

lemma monitor_remove_blocked {m : PrintQueueMonitor}
    (hstop : m.should_stop = false) (hz : m.count = 0)
    (hprod : m.active_producers ≠ 0) :
    monitor_remove m = RemoveResult.blocked := by
  rw [monitor_remove, if_neg (fun hc => hprod hc.2.2), if_pos ⟨hz, hstop⟩]

lemma monitor_remove_of_pos {m : PrintQueueMonitor} (hpos : 0 < m.count) :
    monitor_remove m =
      RemoveResult.removed (m.buffer (slotIdx m.outIdx)) (removeEffect m) := by
  have hne : m.count ≠ 0 := Nat.pos_iff_ne_zero.mp hpos
  rw [monitor_remove, if_neg (fun hc => hne hc.1), if_neg (fun hc => hne hc.1),
    if_neg (fun hc => hne hc.2)]

lemma chanOK_insert {m : PrintQueueMonitor} {doc : Document} (h : ChanOK m)
    (hne : m.count ≠ BUFFER_SIZE) : ChanOK (insertEffect m doc) := by
  obtain ⟨h1, h2, h3, h4, h5, h6⟩ := h
  refine ⟨?_, ?_, h3, ?_, h5, h6⟩
  · show m.count + 1 ≤ BUFFER_SIZE
    simp only [BUFFER_SIZE] at *
    omega
  · show (m.inIdx + 1) % BUFFER_SIZE < BUFFER_SIZE
    simp only [BUFFER_SIZE]
    omega
  · show (m.inIdx + 1) % BUFFER_SIZE = (m.outIdx + (m.count + 1)) % BUFFER_SIZE
    simp only [BUFFER_SIZE] at *
    omega

lemma chanOK_remove {m : PrintQueueMonitor} (h : ChanOK m) (hpos : 0 < m.count) :
    ChanOK (removeEffect m) := by
  obtain ⟨h1, h2, h3, h4, h5, h6⟩ := h
  refine ⟨?_, h2, ?_, ?_, h5, h6⟩
  · show m.count - 1 ≤ BUFFER_SIZE
    omega
  · show (m.outIdx + 1) % BUFFER_SIZE < BUFFER_SIZE
    simp only [BUFFER_SIZE]
    omega
  · show m.inIdx = ((m.outIdx + 1) % BUFFER_SIZE + (m.count - 1)) % BUFFER_SIZE
    simp only [BUFFER_SIZE] at *
    omega

/-- Every reachable channel state is well formed. -/
lemma chanOK_of_reach {m : PrintQueueMonitor} (h : ChanReach m) : ChanOK m := by
  induction h with
  | refl => exact chanOK_chan0
  | tail _ hstep ih =>
      cases hstep with
      | ins doc m2 hins =>
          obtain ⟨rfl, _, hne⟩ := monitor_insert_inserted hins
          exact chanOK_insert ih hne
      | rem doc m2 hrem =>
          obtain ⟨_, rfl, hpos⟩ := monitor_remove_removed hrem
          exact chanOK_remove ih hpos

lemma chanList_length (m : PrintQueueMonitor) : (chanList m).length = m.count := by
  simp [chanList]

/-- A completed insert appends the new document to the held queue. -/
lemma chanList_insert {m : PrintQueueMonitor} (doc : Document) (h : ChanOK m)
    (hlt : m.count < BUFFER_SIZE) :
    chanList (insertEffect m doc) = chanList m ++ [doc] := by
  obtain ⟨h1, h2, h3, h4, h5, h6⟩ := h
  have hmap : ∀ k, k < m.count → chanSlot (insertEffect m doc) k = chanSlot m k := by
    intro k hk
    have hdiff : slotIdx (m.outIdx + k) ≠ slotIdx m.inIdx := by
      rw [ne_eq, slotIdx_eq_iff]
      simp only [BUFFER_SIZE] at h2 h3 h4 hlt ⊢
      omega
    show Function.update m.buffer (slotIdx m.inIdx) doc (slotIdx (m.outIdx + k)) =
      m.buffer (slotIdx (m.outIdx + k))
    rw [Function.update_apply, if_neg hdiff]
  have hlast : chanSlot (insertEffect m doc) m.count = doc := by
    have hsame : slotIdx (m.outIdx + m.count) = slotIdx m.inIdx := by
      rw [slotIdx_eq_iff]
      simp only [BUFFER_SIZE] at h2 h4 ⊢
      omega
    show Function.update m.buffer (slotIdx m.inIdx) doc (slotIdx (m.outIdx + m.count)) =
      doc
    rw [Function.update_apply, if_pos hsame]
  show (List.range (m.count + 1)).map (chanSlot (insertEffect m doc)) =
    chanList m ++ [doc]
  rw [List.range_succ, List.map_append, List.map_singleton, hlast, chanList]
  congr 1
  apply List.map_congr_left
  intro k hk
  exact hmap k (List.mem_range.mp hk)

/-- A completed remove takes the head of the held queue. -/
lemma chanList_remove {m : PrintQueueMonitor} (_h : ChanOK m) (hpos : 0 < m.count) :
    chanList m = m.buffer (slotIdx m.outIdx) :: chanList (removeEffect m) := by
  obtain ⟨n, hn⟩ : ∃ n, m.count = n + 1 := ⟨m.count - 1, by omega⟩
  have hslot : ∀ k, chanSlot (removeEffect m) k = chanSlot m (k + 1) := by
    intro k
    show m.buffer (slotIdx ((m.outIdx + 1) % BUFFER_SIZE + k)) =
      m.buffer (slotIdx (m.outIdx + (k + 1)))
    congr 1
    rw [slotIdx_eq_iff]
    simp only [BUFFER_SIZE]
    omega
  have hhead : chanSlot m 0 = m.buffer (slotIdx m.outIdx) := by
    show m.buffer (slotIdx (m.outIdx + 0)) = m.buffer (slotIdx m.outIdx)
    rw [Nat.add_zero]
  have htail : (List.map Nat.succ (List.range n)).map (chanSlot m) =
      chanList (removeEffect m) := by
    rw [List.map_map, chanList]
    have hc2 : (removeEffect m).count = n := by
      show m.count - 1 = n
      omega
    rw [hc2]
    apply List.map_congr_left
    intro k _
    exact (hslot k).symm
  rw [chanList, hn, List.range_succ_eq_map, List.map_cons, hhead, htail]

/-- Running a script only moves through reachable states. -/
lemma runChan_reach : ∀ (ops : List ChanOp) (m : PrintQueueMonitor),
    ChanReach m → ChanReach (runChan m ops).1 := by
  intro ops
  induction ops with
  | nil => exact fun m hm => hm
  | cons op rest ih =>
      intro m hm
      cases op with
      | ins d =>
          cases hins : monitor_insert m d with
          | inserted m2 =>
              simp only [runChan, hins]
              exact ih m2 (hm.tail (ChanStep.ins m d m2 hins))
          | blocked =>
              simp only [runChan, hins]
              exact ih m hm
          | dropped m3 =>
              simp only [runChan, hins]
              exact ih m hm
      | rem =>
          cases hrem : monitor_remove m with
          | removed d m2 =>
              simp only [runChan, hrem]
              exact ih m2 (hm.tail (ChanStep.rem m d m2 hrem))
          | blocked =>
              simp only [runChan, hrem]
              exact ih m hm
          | empty_closed m3 =>
              simp only [runChan, hrem]
              exact ih m hm

/-- The simulation: the channel and the reference FIFO queue produce
the same outputs on every script. -/
lemma runChan_eq_runQueue : ∀ (ops : List ChanOp) (m : PrintQueueMonitor),
    ChanOK m → (runChan m ops).2 = (runQueue (chanList m) ops).2 := by
  intro ops
  induction ops with
  | nil => exact fun m _ => rfl
  | cons op rest ih =>
      intro m hOK
      cases op with
      | ins d =>
          by_cases hfull : m.count = BUFFER_SIZE
          · have hb := monitor_insert_full d hOK.stop_false hfull
            have hlen : ¬((chanList m).length < BUFFER_SIZE) := by
              rw [chanList_length, hfull]
              omega
            simp only [runChan, hb, runQueue, if_neg hlen]
            exact ih m hOK
          · have hlt : m.count < BUFFER_SIZE := lt_of_le_of_ne hOK.count_le hfull
            have hi := monitor_insert_of_lt d hOK.stop_false hfull
            have hlen : (chanList m).length < BUFFER_SIZE := by
              rw [chanList_length]
              exact hlt
            simp only [runChan, hi, runQueue, if_pos hlen]
            rw [← chanList_insert d hOK hlt]
            exact ih (insertEffect m d) (chanOK_insert hOK hfull)
      | rem =>
          by_cases hz : m.count = 0
          · have hb := monitor_remove_blocked hOK.stop_false hz hOK.producers_ne
            have hnil : chanList m = [] := by
              rw [chanList, hz]
              rfl
            have h2 := ih m hOK
            rw [hnil] at h2
            simp only [runChan, hb, hnil, runQueue]
            exact h2
          · have hpos : 0 < m.count := Nat.pos_of_ne_zero hz
            have hr := monitor_remove_of_pos hpos
            have hcons := chanList_remove hOK hpos
            simp only [runChan, hr]
            rw [hcons]
            simp only [runQueue]
            show m.buffer (slotIdx m.outIdx) :: (runChan (removeEffect m) rest).2 =
              m.buffer (slotIdx m.outIdx) ::
                (runQueue (chanList (removeEffect m)) rest).2
            rw [ih (removeEffect m) (chanOK_remove hOK hpos)]

/-- Every output of the reference queue is either initial content or a
script insert. -/
lemma runQueue_mem : ∀ (ops : List ChanOp) (q : List Document) (d : Document),
    d ∈ (runQueue q ops).2 → d ∈ q ∨ ChanOp.ins d ∈ ops := by
  intro ops
  induction ops with
  | nil =>
      intro q d hd
      simp [runQueue] at hd
  | cons op rest ih =>
      intro q d hd
      cases op with
      | ins e =>
          simp only [runQueue] at hd
          by_cases hlen : q.length < BUFFER_SIZE
          · rw [if_pos hlen] at hd
            rcases ih (q ++ [e]) d hd with hq | hops
            · rcases List.mem_append.mp hq with h1 | h1
              · exact Or.inl h1
              · have he : d = e := by simpa using h1
                exact Or.inr (by rw [he]; exact List.mem_cons_self _ _)
            · exact Or.inr (List.mem_cons_of_mem _ hops)
          · rw [if_neg hlen] at hd
            rcases ih q d hd with hq | hops
            · exact Or.inl hq
            · exact Or.inr (List.mem_cons_of_mem _ hops)
      | rem =>
          cases q with
          | nil =>
              simp only [runQueue] at hd
              rcases ih [] d hd with hq | hops
              · simp at hq
              · exact Or.inr (List.mem_cons_of_mem _ hops)
          | cons e q2 =>
              simp only [runQueue] at hd
              rcases List.mem_cons.mp hd with rfl | hd2
              · exact Or.inl (List.mem_cons_self _ _)
              · rcases ih q2 d hd2 with hq | hops
                · exact Or.inl (List.mem_cons_of_mem _ hq)
                · exact Or.inr (List.mem_cons_of_mem _ hops)

/-! Channel claim theorems. -/

/-- Counterexample to claim C4 as stated: the full buffer is reachable
(five completed inserts from the empty channel) and there
count = 5 = BUFFER_SIZE while (tail - head) mod N = (0 - 0) mod 5 = 0,
under Nat or Int subtraction alike, so count ≠ (tail - head) mod N. -/
theorem chan_index_claim_cex :
    ChanReach chanFull ∧ chanFull.count = BUFFER_SIZE ∧ chanFull.inIdx = 0 ∧
      chanFull.outIdx = 0 ∧
      chanFull.count ≠ (chanFull.inIdx - chanFull.outIdx) % BUFFER_SIZE ∧
      (chanFull.count : Int) ≠
        ((chanFull.inIdx : Int) - (chanFull.outIdx : Int)) % (BUFFER_SIZE : Int) :=
  ⟨runChan_reach _ chan0 Relation.ReflTransGen.refl,
    by decide, by decide, by decide, by decide, by decide⟩

/-- Claim C4 (amended): in every state reachable by completed
insert/remove operations from the empty channel, 0 ≤ count ≤ N and
tail = (head + count) mod N; equivalently count ≡ (tail - head)
(mod N) — the literal equation count = (tail - head) mod N holds only
modulo N, because in the full state count = N while the right side is
0. -/
theorem chan_index_accounting (m : PrintQueueMonitor) (h : ChanReach m) :
    m.count ≤ BUFFER_SIZE ∧ m.inIdx = (m.outIdx + m.count) % BUFFER_SIZE ∧
      m.count % BUFFER_SIZE = ((BUFFER_SIZE + m.inIdx) - m.outIdx) % BUFFER_SIZE := by
  obtain ⟨h1, h2, h3, h4, _, _⟩ := chanOK_of_reach h
  refine ⟨h1, h4, ?_⟩
  simp only [BUFFER_SIZE] at *
  omega

/-- Witness for chan_index_accounting at the empty channel. -/
theorem chan_index_accounting_witness :
    chan0.count ≤ BUFFER_SIZE ∧
      chan0.inIdx = (chan0.outIdx + chan0.count) % BUFFER_SIZE ∧
      chan0.count % BUFFER_SIZE =
        ((BUFFER_SIZE + chan0.inIdx) - chan0.outIdx) % BUFFER_SIZE :=
  chan_index_accounting chan0 Relation.ReflTransGen.refl

/-- Claim C5: the channel is a FIFO queue in the sequential setting.
On every script the channel produces exactly the outputs of the
reference capacity-N FIFO queue, and every document a remove returns
was previously passed to an insert. -/
theorem chan_fifo_refinement (ops : List ChanOp) :
    (runChan chan0 ops).2 = (runQueue [] ops).2 ∧
      ∀ d ∈ (runChan chan0 ops).2, ChanOp.ins d ∈ ops := by
  have hnil : chanList chan0 = [] := rfl
  have h1 := runChan_eq_runQueue ops chan0 chanOK_chan0
  rw [hnil] at h1
  refine ⟨h1, ?_⟩
  intro d hd
  rw [h1] at hd
  rcases runQueue_mem ops [] d hd with hq | hops
  · simp at hq
  · exact hops

/-- Witness for chan_fifo_refinement on a concrete script. -/
theorem chan_fifo_refinement_witness :
    (runChan chan0 [ChanOp.ins default, ChanOp.rem]).2 =
      (runQueue [] [ChanOp.ins default, ChanOp.rem]).2 ∧
      ∀ d ∈ (runChan chan0 [ChanOp.ins default, ChanOp.rem]).2,
        ChanOp.ins d ∈ [ChanOp.ins default, ChanOp.rem] :=
  chan_fifo_refinement [ChanOp.ins default, ChanOp.rem]

/-- Claim C7: remove on a closed channel.  If the channel is marked
closed (or all producers have finished) while count = 0, monitor_remove
returns the distinguished closed/empty result (return value 0) with the
state unchanged; when count > 0 it returns success (return value 1)
together with the document at the removal index, having advanced that
index and decremented count. -/
theorem chan_remove_closed (m : PrintQueueMonitor) :
    (m.count = 0 → m.should_stop = true ∨ m.active_producers = 0 →
      monitor_remove m = RemoveResult.empty_closed m) ∧
      (0 < m.count →
        monitor_remove m =
          RemoveResult.removed (m.buffer (slotIdx m.outIdx)) (removeEffect m)) := by
  constructor
  · intro hz hclosed
    cases hstop : m.should_stop with
    | true =>
        rw [monitor_remove,
          if_neg (fun hc => by rw [hstop] at hc; cases hc.2.1),
          if_neg (fun hc => by rw [hstop] at hc; cases hc.2),
          if_pos ⟨hstop, hz⟩]
    | false =>
        have hprod : m.active_producers = 0 := by
          rcases hclosed with hs | hp
          · rw [hstop] at hs
            cases hs
          · exact hp
        rw [monitor_remove, if_pos ⟨hz, hstop, hprod⟩]
  · exact fun hpos => monitor_remove_of_pos hpos

/-- Witness for chan_remove_closed: a closed empty channel and a
reachable channel holding one document. -/
theorem chan_remove_closed_witness :
    monitor_remove chanStopped = RemoveResult.empty_closed chanStopped ∧
      monitor_remove chanOne =
        RemoveResult.removed (chanOne.buffer (slotIdx chanOne.outIdx))
          (removeEffect chanOne) :=
  ⟨(chan_remove_closed chanStopped).1 rfl (Or.inl rfl),
    (chan_remove_closed chanOne).2 (by decide)⟩

/-- Claim C10: insert frame effect.  A completed insert changes only
the slot at the insertion index, the insertion index and count — the
removal index, the shutdown fields and every other slot are unchanged —
and the early-return path taken when the channel is marked closed drops
the item and returns the state entirely unchanged. -/
theorem chan_insert_frame (m : PrintQueueMonitor) (doc : Document) :
    (m.should_stop = true → monitor_insert m doc = InsertResult.dropped m) ∧
      (m.should_stop = false → m.count ≠ BUFFER_SIZE →
        monitor_insert m doc = InsertResult.inserted (insertEffect m doc) ∧
        (insertEffect m doc).outIdx = m.outIdx ∧
        (insertEffect m doc).active_producers = m.active_producers ∧
        (insertEffect m doc).should_stop = m.should_stop ∧
        (insertEffect m doc).count = m.count + 1 ∧
        (insertEffect m doc).inIdx = (m.inIdx + 1) % BUFFER_SIZE ∧
        (insertEffect m doc).buffer (slotIdx m.inIdx) = doc ∧
        ∀ b : Fin BUFFER_SIZE, b ≠ slotIdx m.inIdx →
          (insertEffect m doc).buffer b = m.buffer b) := by
  constructor
  · intro hstop
    rw [monitor_insert, if_neg (fun hc => by rw [hstop] at hc; cases hc.2),
      if_pos hstop]
  · intro hstop hne
    refine ⟨monitor_insert_of_lt doc hstop hne, rfl, rfl, rfl, rfl, rfl, ?_, ?_⟩
    · show Function.update m.buffer (slotIdx m.inIdx) doc (slotIdx m.inIdx) = doc
      rw [Function.update_same]
    · intro b hb
      show Function.update m.buffer (slotIdx m.inIdx) doc b = m.buffer b
      rw [Function.update_apply, if_neg hb]

/-- Witness for chan_insert_frame: the closed channel drops, the empty
channel inserts with the stated frame. -/
theorem chan_insert_frame_witness :
    monitor_insert chanStopped default = InsertResult.dropped chanStopped ∧
      (monitor_insert chan0 default = InsertResult.inserted (insertEffect chan0 default) ∧
        (insertEffect chan0 default).outIdx = chan0.outIdx ∧
        (insertEffect chan0 default).active_producers = chan0.active_producers ∧
        (insertEffect chan0 default).should_stop = chan0.should_stop ∧
        (insertEffect chan0 default).count = chan0.count + 1 ∧
        (insertEffect chan0 default).inIdx = (chan0.inIdx + 1) % BUFFER_SIZE ∧
        (insertEffect chan0 default).buffer (slotIdx chan0.inIdx) = default ∧
        ∀ b : Fin BUFFER_SIZE, b ≠ slotIdx chan0.inIdx →
          (insertEffect chan0 default).buffer b = chan0.buffer b) :=
  ⟨(chan_insert_frame chanStopped default).1 rfl,
    (chan_insert_frame chan0 default).2 rfl (by decide)⟩

end ClassicCP
